import Mathlib

/-!
Shallow embedding of `tools/biger_validator.py`, a line-oriented validator
for a small entity-relationship-diagram notation.  Python strings are
modelled as Lean `String`s (lists of characters); the whitespace classes of
`str.strip` and the regex class `\s` are modelled over their ASCII members,
which is all the validator's own patterns and message texts use.  File
input is modelled by handing the file's text (or its list of lines) to the
checker directly; the command line is modelled by an argument vector and a
lookup function from paths to file contents.
-/

namespace Biger

/-- ASCII whitespace: the characters stripped by Python's `str.strip()` and
matched by the regex class `\s` (restricted to ASCII). -/
def isPySpace (c : Char) : Bool :=
  c == ' ' || c == '\t' || c == '\n' || c == '\r' || c == '\x0b' || c == '\x0c'

/-- `str.strip()` on a character list: drop leading and trailing whitespace. -/
def pyStripList (l : List Char) : List Char :=
  ((l.dropWhile isPySpace).reverse.dropWhile isPySpace).reverse

/-- `line.strip()`. -/
def pyStrip (s : String) : String := ⟨pyStripList s.data⟩

/-- Whether `p` is a prefix of `l` (character lists). -/
def isPre : List Char → List Char → Bool
  | [], _ => true
  | _ :: _, [] => false
  | p :: ps, c :: cs => p == c && isPre ps cs

/-- `s.startswith(pre)`. -/
def pyStartsWith (s pre : String) : Bool := isPre pre.data s.data

/-- `s.endswith(c)` for a one-character suffix. -/
def pyEndsWith (s : String) (c : Char) : Bool :=
  match s.data.getLast? with
  | some d => d == c
  | none => false

/-- One validation finding.  Each constructor stands for one of the
f-strings the Python code appends to `issues`; `issueText` reproduces the
exact message. -/
inductive Issue where
  | badHeader
  | missingNotationDecl
  | unmatchedBrace (n : Nat)
  | mismatchedBraces
  | badEntityDecl (n : Nat) (s : String)
  | badRelDecl (n : Nat) (s : String)
  | badCardinality (n : Nat) (s : String)
  | quotedNames (n : Nat)
deriving DecidableEq

/-- The exact message text the Python code builds for each issue. -/
def issueText : Issue → String
  | .badHeader =>
      "Missing or malformed header: file should start with \"erdiagram ModelName\""
  | .missingNotationDecl =>
      "Missing notation declaration (e.g. notation=crowsfoot) in the first 10 lines"
  | .unmatchedBrace n => "Unmatched closing brace on line " ++ toString n
  | .mismatchedBraces => "Mismatched braces: some blocks are not closed"
  | .badEntityDecl n s =>
      "Invalid entity declaration on line " ++ toString n ++ ": \"" ++ s ++ "\""
  | .badRelDecl n s =>
      "Invalid relationship declaration on line " ++ toString n ++ ": \"" ++ s ++ "\""
  | .badCardinality n s =>
      "Unrecognized cardinality on line " ++ toString n ++ ": \"" ++ s ++ "\""
  | .quotedNames n =>
      "Quoted identifiers or roles found on line " ++ toString n ++
        ": bigER prefers unquoted names; using quotes may cause parser errors"

/-- The 1-based line number an issue cites, if any. -/
def lineNum : Issue → Option Nat
  | .unmatchedBrace n => some n
  | .badEntityDecl n _ => some n
  | .badRelDecl n _ => some n
  | .badCardinality n _ => some n
  | .quotedNames n => some n
  | _ => none

/-- `[A-Za-z_]`: first character of an identifier. -/
def isIdentStart (c : Char) : Bool :=
  (decide ('A' ≤ c) && decide (c ≤ 'Z')) || (decide ('a' ≤ c) && decide (c ≤ 'z'))
    || c == '_'

/-- `\s*[A-Za-z_]`: skip whitespace, then an identifier must begin.  (The
trailing `[A-Za-z0-9_]*` of the identifier regexes always succeeds, so
match success only needs the first identifier character.) -/
def spacesThenIdent : List Char → Bool
  | [] => false
  | c :: l => if isPySpace c then spacesThenIdent l else isIdentStart c

/-- `\s+[A-Za-z_]...`: at least one whitespace character, then an identifier. -/
def spacePlusIdent : List Char → Bool
  | [] => false
  | c :: l => isPySpace c && spacesThenIdent l

/-- `ENTITY_DECL = re.compile(r"^entity\s+([A-Za-z_][A-Za-z0-9_]*)")`:
whether `.match(s)` succeeds. -/
def ENTITY_DECL (s : String) : Bool :=
  isPre "entity".data s.data && spacePlusIdent (s.data.drop 6)

/-- `WEAK_ENTITY_DECL = re.compile(r"^weak entity\s+([A-Za-z_][A-Za-z0-9_]*)")`. -/
def WEAK_ENTITY_DECL (s : String) : Bool :=
  isPre "weak entity".data s.data && spacePlusIdent (s.data.drop 11)

/-- `REL_DECL = re.compile(r"^relationship\s+([A-Za-z_][A-Za-z0-9_]*)")`. -/
def REL_DECL (s : String) : Bool :=
  isPre "relationship".data s.data && spacePlusIdent (s.data.drop 12)

/-- `\s*=\s*[A-Za-z_]...`: skip whitespace, an equals sign, skip whitespace,
then a name character must follow. -/
def eqThenName : List Char → Bool
  | [] => false
  | c :: l => if c == '=' then spacesThenIdent l else (isPySpace c && eqThenName l)

/-- `NOTATION_DECL = re.compile(r"^notation\s*=\s*([A-Za-z_]+)")`: defined in
the source but never applied by `check_file`. -/
def NOTATION_DECL (s : String) : Bool :=
  isPre "notation".data s.data && eqThenName (s.data.drop 8)

/-- One regex pattern element: `some c` is the literal character `c`,
`none` is `.` (any character except a newline). -/
def matchPat : List (Option Char) → List Char → Option (List Char)
  | [], l => some l
  | _ :: _, [] => none
  | some p :: ps, c :: l => if p == c then matchPat ps l else none
  | none :: ps, c :: l => if c == '\n' then none else matchPat ps l

/-- The six alternatives of `(?:0\..N|1\..N|0\..1|1\..1|N|1)` in source
order.  Note `\..` is a literal dot followed by `.` (any character), so the
first four alternatives each accept an arbitrary character in third
position. -/
def cardAlts : List (List (Option Char)) :=
  [[some '0', some '.', none, some 'N'],
   [some '1', some '.', none, some 'N'],
   [some '0', some '.', none, some '1'],
   [some '1', some '.', none, some '1'],
   [some 'N'],
   [some '1']]

/-- Whether `\[(?:0\..N|1\..N|0\..1|1\..1|N|1)\]` matches at this position. -/
def bracketTokClose (l : List Char) : Bool :=
  match l with
  | '[' :: r =>
    cardAlts.any fun p =>
      match matchPat p r with
      | some (']' :: _) => true
      | _ => false
  | _ => false

/-- `\s*\|`: skip whitespace, then a pipe must follow. -/
def pipeAfterSpaces : List Char → Bool
  | [] => false
  | c :: l => if c == '|' then true else (isPySpace c && pipeAfterSpaces l)

/-- Whether `\[(?:0\..N|1\..N|0\..1|1\..1|N|1)\s*\|` matches at this position. -/
def bracketTokPipe (l : List Char) : Bool :=
  match l with
  | '[' :: r =>
    cardAlts.any fun p =>
      match matchPat p r with
      | some rest => pipeAfterSpaces rest
      | none => false
  | _ => false

/-- `re.search`: try the position matcher at every suffix. -/
def searchBy (f : List Char → Bool) : List Char → Bool
  | [] => f []
  | c :: l => f (c :: l) || searchBy f l

/-- Python's `sub in l` substring test. -/
def subIn (sub l : List Char) : Bool := searchBy (isPre sub) l

/-- `line.split('->')`: accumulator-based splitter (`acc` holds the current
segment reversed). -/
def splitArrowAux : List Char → List Char → List (List Char)
  | [], acc => [acc.reverse]
  | '-' :: '>' :: rest, acc => acc.reverse :: splitArrowAux rest []
  | c :: rest, acc => splitArrowAux rest (c :: acc)

/-- `line.split('->')`. -/
def splitArrow (l : List Char) : List (List Char) := splitArrowAux l []

/-- The cardinality test the code applies to one `->` segment: the plain
bracketed-token search succeeds, or the segment holds a `|` and the
token-then-pipe search succeeds (the role-syntax escape hatch). -/
def cardSegOk (t : List Char) : Bool :=
  searchBy bracketTokClose t || (t.contains '|' && searchBy bracketTokPipe t)

/-- The issues the cardinality check contributes for one line (line number
`i`), given that the scan is inside a relationship block: nothing unless
the line holds `->`; otherwise one issue per segment that holds `[` and `]`
but fails `cardSegOk`. -/
def cardLineIssues (i : Nat) (line : String) : List Issue :=
  if subIn ['-', '>'] line.data then
    (splitArrow line.data).filterMap fun t =>
      if t.contains '[' && t.contains ']' && !cardSegOk t then
        some (Issue.badCardinality i (pyStrip line))
      else none
  else []

/-- Flag update at the top of the loop body: `if line.strip().startswith('relationship '): rel_block = True`. -/
def relFlagIn (b : Bool) (line : String) : Bool :=
  b || pyStartsWith (pyStrip line) "relationship "

/-- Flag update at the bottom of the loop body: inside a block, a line whose
trimmed form ends with `}` clears the flag. -/
def relFlagOut (b1 : Bool) (line : String) : Bool :=
  if b1 && pyEndsWith (pyStrip line) '}' then false else b1

/-- The stateful cardinality pass (`rel_block` flag `b`, next line number `i`). -/
def cardScan (b : Bool) (i : Nat) : List String → List Issue
  | [] => []
  | line :: ls =>
    (if relFlagIn b line then cardLineIssues i line else []) ++
      cardScan (relFlagOut (relFlagIn b line) line) (i + 1) ls

/-- Whether the cardinality check applies to the line at 0-based index `i`
(the value of the `rel_block` flag when the arrow test runs on that line),
starting the scan with flag value `b`. -/
def cardApplied (b : Bool) : List String → Nat → Bool
  | [], _ => false
  | line :: _, 0 => relFlagIn b line
  | line :: ls, i + 1 => cardApplied (relFlagOut (relFlagIn b line) line) ls i

/-- `line.count('{') - line.count('}')` as an integer. -/
def braceDelta (line : String) : Int :=
  (line.data.count '{' : Int) - (line.data.count '}' : Int)

/-- One step of the brace counter, with the reset to 0 on a negative value. -/
def braceStep (c : Int) (line : String) : Int :=
  if c + braceDelta line < 0 then 0 else c + braceDelta line

/-- The brace counter after scanning `ls` starting from `c` (reset included). -/
def braceRun (c : Int) (ls : List String) : Int := ls.foldl braceStep c

/-- The brace-balancing pass: counter `c`, next line number `i`; an
`unmatchedBrace` issue whenever the counter goes negative (then reset), and
a final `mismatchedBraces` issue when the counter ends nonzero. -/
def braceScan (c : Int) (i : Nat) : List String → List Issue
  | [] => if c ≠ 0 then [Issue.mismatchedBraces] else []
  | line :: ls =>
    (if c + braceDelta line < 0 then [Issue.unmatchedBrace i] else []) ++
      braceScan (braceStep c line) (i + 1) ls

/-- The issues the declaration check contributes for one line. -/
def declLineIssues (i : Nat) (line : String) : List Issue :=
  let s := pyStrip line
  (if (pyStartsWith s "entity " || pyStartsWith s "weak entity ") &&
      !(ENTITY_DECL s || WEAK_ENTITY_DECL s) then
    [Issue.badEntityDecl i s]
   else []) ++
  (if pyStartsWith s "relationship " && !REL_DECL s then
    [Issue.badRelDecl i s]
   else [])

/-- The entity/relationship declaration pass. -/
def declScan (i : Nat) : List String → List Issue
  | [] => []
  | line :: ls => declLineIssues i line ++ declScan (i + 1) ls

/-- The quoting pass: one issue per line holding a double quote. -/
def quoteScan (i : Nat) : List String → List Issue
  | [] => []
  | line :: ls =>
    (if line.data.contains '"' then [Issue.quotedNames i] else []) ++
      quoteScan (i + 1) ls

/-- The header check: the first line, trimmed, must start with `erdiagram`. -/
def headerIssues (ls : List String) : List Issue :=
  match ls with
  | [] => [Issue.badHeader]
  | line :: _ =>
    if pyStartsWith (pyStrip line) "erdiagram" then [] else [Issue.badHeader]

/-- The notation-declaration check: some line among the first 10, trimmed,
must start with `notation=`. -/
def notationIssues (ls : List String) : List Issue :=
  if (ls.take 10).any (fun line => pyStartsWith (pyStrip line) "notation=") then []
  else [Issue.missingNotationDecl]

/-- `check_file` on an already-split document: the six checks in program
order, their findings concatenated. -/
def checkLines (ls : List String) : List Issue :=
  headerIssues ls ++ notationIssues ls ++ braceScan 0 1 ls ++ declScan 1 ls ++
    cardScan false 1 ls ++ quoteScan 1 ls

/-- `str.splitlines()` (`acc` holds the current line reversed). -/
def splitlinesAux : List Char → List Char → List String
  | [], acc => if acc.isEmpty then [] else [⟨acc.reverse⟩]
  | '\r' :: '\n' :: rest, acc => ⟨acc.reverse⟩ :: splitlinesAux rest []
  | c :: rest, acc =>
    if c == '\n' || c == '\r' || c == '\x0b' || c == '\x0c' || c == '\x1c' ||
        c == '\x1d' || c == '\x1e' || c == '\x85' || c == '\u2028' || c == '\u2029' then
      ⟨acc.reverse⟩ :: splitlinesAux rest []
    else splitlinesAux rest (c :: acc)

/-- `text.splitlines()`. -/
def splitlines (text : String) : List String := splitlinesAux text.data []

/-- `check_file(path)`: read the text, split into lines, run the checks.
The read itself is modelled by passing the text. -/
def check_file (text : String) : List Issue := checkLines (splitlines text)

/-- The `__main__` block: `argv` is the full `sys.argv`, `fs` maps a path to
its contents when the path exists.  Result: the printed lines and the exit
status. -/
def runMain (argv : List String) (fs : String → Option String) : List String × Nat :=
  if argv.length ≠ 2 then
    (["Usage: biger_validator.py <path_to_erd_file>"], 2)
  else
    let p := argv.getD 1 ""
    match fs p with
    | none => (["File not found: " ++ p], 2)
    | some text =>
      let issues := check_file text
      if issues.isEmpty then
        (["PASS: No obvious syntax problems found by the lightweight validator."], 0)
      else
        ("Found issues:" :: issues.map (fun it => "- " ++ issueText it), 1)

/-- The cardinality tokens the specification recognizes, as character
lists: `0..N`, `1..N`, `0..1`, `1..1`, `N`, `1`. -/
def cardToks : List (List Char) :=
  [['0', '.', '.', 'N'], ['1', '.', '.', 'N'], ['0', '.', '.', '1'],
   ['1', '.', '.', '1'], ['N'], ['1']]

/-- A `->` segment that carries a recognized cardinality: somewhere in the
segment, a `[`, a recognized token and a `]`, or a `[`, a recognized token,
whitespace, a `|` and a role designator. -/
def goodSeg (t : List Char) : Prop :=
  (∃ pre tok suf, tok ∈ cardToks ∧ t = pre ++ '[' :: (tok ++ ']' :: suf)) ∨
  (∃ pre tok ws rest, tok ∈ cardToks ∧ (∀ c ∈ ws, isPySpace c = true) ∧
    t = pre ++ '[' :: (tok ++ ws ++ '|' :: rest))

/-- A line on which, when the line holds the arrow token `->`, every
bracketed `->` segment carries a recognized cardinality.  (Lines without
`->` are unconstrained: the code's cardinality test skips them.) -/
def goodLineCard (line : String) : Prop :=
  subIn ['-', '>'] line.data = true →
    ∀ t ∈ splitArrow line.data, t.contains '[' = true → t.contains ']' = true → goodSeg t

/-- A line whose entity / weak-entity / relationship declaration, when the
line (trimmed) opens one, matches the corresponding declaration pattern. -/
def declLineOk (line : String) : Prop :=
  ((pyStartsWith (pyStrip line) "entity " = true ∨
    pyStartsWith (pyStrip line) "weak entity " = true) →
    (ENTITY_DECL (pyStrip line) || WEAK_ENTITY_DECL (pyStrip line)) = true) ∧
  (pyStartsWith (pyStrip line) "relationship " = true →
    REL_DECL (pyStrip line) = true)

/-- The raw (reset-free) running brace sum of a list of lines. -/
def rawBrace (ls : List String) : Int := (ls.map braceDelta).sum


end Biger

namespace Biger

/-! Helper lemmas: which constructors each pass can emit, and how membership
in the full issue list reduces to membership in the responsible pass. -/

lemma mem_headerIssues {x : Issue} {ls : List String} (h : x ∈ headerIssues ls) :
    x = Issue.badHeader := by
  rcases ls with _ | ⟨l, t⟩
  · simpa [headerIssues] using h
  · simp only [headerIssues] at h
    split at h
    · simp at h
    · simpa using h

lemma mem_notationIssues {x : Issue} {ls : List String} (h : x ∈ notationIssues ls) :
    x = Issue.missingNotationDecl := by
  simp only [notationIssues] at h
  split at h
  · simp at h
  · simpa using h

lemma mem_braceScan {x : Issue} :
    ∀ {c : Int} {i : Nat} {ls : List String}, x ∈ braceScan c i ls →
      (∃ n, x = Issue.unmatchedBrace n) ∨ x = Issue.mismatchedBraces := by
  intro c i ls
  induction ls generalizing c i with
  | nil =>
    intro h
    simp only [braceScan] at h
    split at h
    · right; simpa using h
    · simp at h
  | cons line t ih =>
    intro h
    simp only [braceScan] at h
    rcases List.mem_append.mp h with h | h
    · split at h
      · left; exact ⟨i, by simpa using h⟩
      · simp at h
    · exact ih h

lemma mem_cardLineIssues {x : Issue} {i : Nat} {line : String}
    (h : x ∈ cardLineIssues i line) : x = Issue.badCardinality i (pyStrip line) := by
  simp only [cardLineIssues] at h
  split at h
  · rcases List.mem_filterMap.mp h with ⟨t, _, ht⟩
    split at ht
    · simpa using ht.symm
    · simp at ht
  · simp at h

lemma mem_cardScan {x : Issue} :
    ∀ {b : Bool} {i : Nat} {ls : List String}, x ∈ cardScan b i ls →
      ∃ n s, x = Issue.badCardinality n s := by
  intro b i ls
  induction ls generalizing b i with
  | nil => intro h; simp [cardScan] at h
  | cons line t ih =>
    intro h
    simp only [cardScan] at h
    rcases List.mem_append.mp h with h | h
    · split at h
      · exact ⟨i, pyStrip line, mem_cardLineIssues h⟩
      · simp at h
    · exact ih h

lemma mem_declLineIssues {x : Issue} {i : Nat} {line : String}
    (h : x ∈ declLineIssues i line) :
    x = Issue.badEntityDecl i (pyStrip line) ∨ x = Issue.badRelDecl i (pyStrip line) := by
  simp only [declLineIssues] at h
  rcases List.mem_append.mp h with h | h
  · split at h
    · left; simpa using h
    · simp at h
  · split at h
    · right; simpa using h
    · simp at h

lemma mem_declScan {x : Issue} :
    ∀ {i : Nat} {ls : List String}, x ∈ declScan i ls →
      (∃ n s, x = Issue.badEntityDecl n s) ∨ ∃ n s, x = Issue.badRelDecl n s := by
  intro i ls
  induction ls generalizing i with
  | nil => intro h; simp [declScan] at h
  | cons line t ih =>
    intro h
    simp only [declScan] at h
    rcases List.mem_append.mp h with h | h
    · rcases mem_declLineIssues h with h | h
      · exact Or.inl ⟨i, pyStrip line, h⟩
      · exact Or.inr ⟨i, pyStrip line, h⟩
    · exact ih h

lemma mem_quoteScan {x : Issue} :
    ∀ {i : Nat} {ls : List String}, x ∈ quoteScan i ls → ∃ n, x = Issue.quotedNames n := by
  intro i ls
  induction ls generalizing i with
  | nil => intro h; simp [quoteScan] at h
  | cons line t ih =>
    intro h
    simp only [quoteScan] at h
    rcases List.mem_append.mp h with h | h
    · split at h
      · exact ⟨i, by simpa using h⟩
      · simp at h
    · exact ih h

lemma mem_checkLines_iff {x : Issue} {ls : List String} :
    x ∈ checkLines ls ↔
      x ∈ headerIssues ls ∨ x ∈ notationIssues ls ∨ x ∈ braceScan 0 1 ls ∨
        x ∈ declScan 1 ls ∨ x ∈ cardScan false 1 ls ∨ x ∈ quoteScan 1 ls := by
  simp [checkLines, List.mem_append, or_assoc]

lemma badHeader_mem {ls : List String} :
    Issue.badHeader ∈ checkLines ls ↔ Issue.badHeader ∈ headerIssues ls := by
  rw [mem_checkLines_iff]
  constructor
  · rintro (h | h | h | h | h | h)
    · exact h
    · exact Issue.noConfusion (mem_notationIssues h)
    · rcases mem_braceScan h with ⟨n, hn⟩ | hn <;> exact Issue.noConfusion hn
    · rcases mem_declScan h with ⟨n, s, hn⟩ | ⟨n, s, hn⟩ <;> exact Issue.noConfusion hn
    · rcases mem_cardScan h with ⟨n, s, hn⟩; exact Issue.noConfusion hn
    · rcases mem_quoteScan h with ⟨n, hn⟩; exact Issue.noConfusion hn
  · exact fun h => Or.inl h

lemma missingNotationDecl_mem {ls : List String} :
    Issue.missingNotationDecl ∈ checkLines ls ↔
      Issue.missingNotationDecl ∈ notationIssues ls := by
  rw [mem_checkLines_iff]
  constructor
  · rintro (h | h | h | h | h | h)
    · exact Issue.noConfusion (mem_headerIssues h)
    · exact h
    · rcases mem_braceScan h with ⟨n, hn⟩ | hn <;> exact Issue.noConfusion hn
    · rcases mem_declScan h with ⟨n, s, hn⟩ | ⟨n, s, hn⟩ <;> exact Issue.noConfusion hn
    · rcases mem_cardScan h with ⟨n, s, hn⟩; exact Issue.noConfusion hn
    · rcases mem_quoteScan h with ⟨n, hn⟩; exact Issue.noConfusion hn
  · exact fun h => Or.inr (Or.inl h)

lemma unmatchedBrace_mem {ls : List String} {n : Nat} :
    Issue.unmatchedBrace n ∈ checkLines ls ↔
      Issue.unmatchedBrace n ∈ braceScan 0 1 ls := by
  rw [mem_checkLines_iff]
  constructor
  · rintro (h | h | h | h | h | h)
    · exact Issue.noConfusion (mem_headerIssues h)
    · exact Issue.noConfusion (mem_notationIssues h)
    · exact h
    · rcases mem_declScan h with ⟨m, s, hn⟩ | ⟨m, s, hn⟩ <;> exact Issue.noConfusion hn
    · rcases mem_cardScan h with ⟨m, s, hn⟩; exact Issue.noConfusion hn
    · rcases mem_quoteScan h with ⟨m, hn⟩; exact Issue.noConfusion hn
  · exact fun h => Or.inr (Or.inr (Or.inl h))

lemma badEntityDecl_mem {ls : List String} {n : Nat} {s : String} :
    Issue.badEntityDecl n s ∈ checkLines ls ↔
      Issue.badEntityDecl n s ∈ declScan 1 ls := by
  rw [mem_checkLines_iff]
  constructor
  · rintro (h | h | h | h | h | h)
    · exact Issue.noConfusion (mem_headerIssues h)
    · exact Issue.noConfusion (mem_notationIssues h)
    · rcases mem_braceScan h with ⟨m, hn⟩ | hn <;> exact Issue.noConfusion hn
    · exact h
    · rcases mem_cardScan h with ⟨m, u, hn⟩; exact Issue.noConfusion hn
    · rcases mem_quoteScan h with ⟨m, hn⟩; exact Issue.noConfusion hn
  · exact fun h => Or.inr (Or.inr (Or.inr (Or.inl h)))

lemma badRelDecl_mem {ls : List String} {n : Nat} {s : String} :
    Issue.badRelDecl n s ∈ checkLines ls ↔
      Issue.badRelDecl n s ∈ declScan 1 ls := by
  rw [mem_checkLines_iff]
  constructor
  · rintro (h | h | h | h | h | h)
    · exact Issue.noConfusion (mem_headerIssues h)
    · exact Issue.noConfusion (mem_notationIssues h)
    · rcases mem_braceScan h with ⟨m, hn⟩ | hn <;> exact Issue.noConfusion hn
    · exact h
    · rcases mem_cardScan h with ⟨m, u, hn⟩; exact Issue.noConfusion hn
    · rcases mem_quoteScan h with ⟨m, hn⟩; exact Issue.noConfusion hn
  · exact fun h => Or.inr (Or.inr (Or.inr (Or.inl h)))

end Biger

namespace Biger

lemma badCardinality_mem {ls : List String} {n : Nat} {s : String} :
    Issue.badCardinality n s ∈ checkLines ls ↔
      Issue.badCardinality n s ∈ cardScan false 1 ls := by
  rw [mem_checkLines_iff]
  constructor
  · rintro (h | h | h | h | h | h)
    · exact Issue.noConfusion (mem_headerIssues h)
    · exact Issue.noConfusion (mem_notationIssues h)
    · rcases mem_braceScan h with ⟨m, hn⟩ | hn <;> exact Issue.noConfusion hn
    · rcases mem_declScan h with ⟨m, u, hn⟩ | ⟨m, u, hn⟩ <;> exact Issue.noConfusion hn
    · exact h
    · rcases mem_quoteScan h with ⟨m, hn⟩; exact Issue.noConfusion hn
  · exact fun h => Or.inr (Or.inr (Or.inr (Or.inr (Or.inl h))))

lemma quotedNames_mem {ls : List String} {n : Nat} :
    Issue.quotedNames n ∈ checkLines ls ↔ Issue.quotedNames n ∈ quoteScan 1 ls := by
  rw [mem_checkLines_iff]
  constructor
  · rintro (h | h | h | h | h | h)
    · exact Issue.noConfusion (mem_headerIssues h)
    · exact Issue.noConfusion (mem_notationIssues h)
    · rcases mem_braceScan h with ⟨m, hn⟩ | hn <;> exact Issue.noConfusion hn
    · rcases mem_declScan h with ⟨m, u, hn⟩ | ⟨m, u, hn⟩ <;> exact Issue.noConfusion hn
    · rcases mem_cardScan h with ⟨m, u, hn⟩; exact Issue.noConfusion hn
    · exact h
  · exact fun h => Or.inr (Or.inr (Or.inr (Or.inr (Or.inr h))))

lemma count_badHeader_checkLines (ls : List String) :
    (checkLines ls).count Issue.badHeader = (headerIssues ls).count Issue.badHeader := by
  simp only [checkLines, List.count_append]
  have h2 : (notationIssues ls).count Issue.badHeader = 0 :=
    List.count_eq_zero.mpr fun h => Issue.noConfusion (mem_notationIssues h)
  have h3 : (braceScan 0 1 ls).count Issue.badHeader = 0 :=
    List.count_eq_zero.mpr fun h => by
      rcases mem_braceScan h with ⟨m, hn⟩ | hn <;> exact Issue.noConfusion hn
  have h4 : (declScan 1 ls).count Issue.badHeader = 0 :=
    List.count_eq_zero.mpr fun h => by
      rcases mem_declScan h with ⟨m, u, hn⟩ | ⟨m, u, hn⟩ <;> exact Issue.noConfusion hn
  have h5 : (cardScan false 1 ls).count Issue.badHeader = 0 :=
    List.count_eq_zero.mpr fun h => by
      rcases mem_cardScan h with ⟨m, u, hn⟩; exact Issue.noConfusion hn
  have h6 : (quoteScan 1 ls).count Issue.badHeader = 0 :=
    List.count_eq_zero.mpr fun h => by
      rcases mem_quoteScan h with ⟨m, hn⟩; exact Issue.noConfusion hn
  omega

lemma count_mismatchedBraces_checkLines (ls : List String) :
    (checkLines ls).count Issue.mismatchedBraces =
      (braceScan 0 1 ls).count Issue.mismatchedBraces := by
  simp only [checkLines, List.count_append]
  have h1 : (headerIssues ls).count Issue.mismatchedBraces = 0 :=
    List.count_eq_zero.mpr fun h => Issue.noConfusion (mem_headerIssues h)
  have h2 : (notationIssues ls).count Issue.mismatchedBraces = 0 :=
    List.count_eq_zero.mpr fun h => Issue.noConfusion (mem_notationIssues h)
  have h4 : (declScan 1 ls).count Issue.mismatchedBraces = 0 :=
    List.count_eq_zero.mpr fun h => by
      rcases mem_declScan h with ⟨m, u, hn⟩ | ⟨m, u, hn⟩ <;> exact Issue.noConfusion hn
  have h5 : (cardScan false 1 ls).count Issue.mismatchedBraces = 0 :=
    List.count_eq_zero.mpr fun h => by
      rcases mem_cardScan h with ⟨m, u, hn⟩; exact Issue.noConfusion hn
  have h6 : (quoteScan 1 ls).count Issue.mismatchedBraces = 0 :=
    List.count_eq_zero.mpr fun h => by
      rcases mem_quoteScan h with ⟨m, hn⟩; exact Issue.noConfusion hn
  omega

/-- Claim C5: the header check emits exactly one header issue precisely when
the document is empty or its first line, trimmed, does not start with
`erdiagram`; a trimmed first line starting with `erdiagram` yields none. -/
theorem c5_header_check (ls : List String) :
    (Issue.badHeader ∈ checkLines ls ↔
      (ls = [] ∨ pyStartsWith (pyStrip (ls.headD "")) "erdiagram" = false)) ∧
    (checkLines ls).count Issue.badHeader ≤ 1 := by
  constructor
  · rw [badHeader_mem]
    rcases ls with _ | ⟨l, t⟩
    · simp [headerIssues]
    · simp only [headerIssues, List.headD_cons]
      split
      · rename_i hs
        simp [hs]
      · rename_i hs
        simp only [Bool.not_eq_true] at hs
        simp [hs]
  · rw [count_badHeader_checkLines]
    rcases ls with _ | ⟨l, t⟩
    · simp [headerIssues]
    · simp only [headerIssues]
      split <;> simp

/-- Claim C8: the issue list is a pure function of the document's line
content: two runs on identical lines give identical issue lists. -/
theorem c8_deterministic (ls1 ls2 : List String) (h : ls1 = ls2) :
    checkLines ls1 = checkLines ls2 := by rw [h]

theorem c8_deterministic_witness :
    checkLines ["erdiagram M", "notation=x"] = checkLines ["erdiagram M", "notation=x"] :=
  c8_deterministic ["erdiagram M", "notation=x"] ["erdiagram M", "notation=x"] rfl

/-- Claim C10: the notation check looks only at the `notation=` prefix of
the trimmed first 10 lines, so a bare `notation=` line suffices and no
notation issue appears; the `NOTATION_DECL` regex, which would demand a
named value, rejects that very line (it is defined but never applied). -/
theorem c10_notation_prefix_only (ls : List String)
    (h : ∃ line ∈ ls.take 10, pyStartsWith (pyStrip line) "notation=" = true) :
    Issue.missingNotationDecl ∉ checkLines ls ∧
      NOTATION_DECL "notation=" = false ∧
      pyStartsWith (pyStrip "notation=") "notation=" = true := by
  refine ⟨?_, by decide, by decide⟩
  rw [missingNotationDecl_mem]
  simp only [notationIssues]
  split
  · simp
  · rename_i hs
    rw [List.any_eq_true] at hs
    exact absurd (by simpa using h) hs

theorem c10_notation_witness :
    Issue.missingNotationDecl ∉ checkLines ["erdiagram M", "notation="] ∧
      NOTATION_DECL "notation=" = false ∧
      pyStartsWith (pyStrip "notation=") "notation=" = true :=
  c10_notation_prefix_only ["erdiagram M", "notation="]
    ⟨"notation=", by decide, by decide⟩

end Biger

namespace Biger

lemma unmatchedBrace_mem_braceScan {n : Nat} :
    ∀ (c : Int) (i : Nat) (ls : List String),
      (Issue.unmatchedBrace n ∈ braceScan c i ls ↔
        ∃ k, k < ls.length ∧ n = i + k ∧
          braceRun c (ls.take k) + braceDelta (ls.getD k "") < 0) := by
  intro c i ls
  induction ls generalizing c i with
  | nil => simp only [braceScan]; split <;> simp
  | cons line t ih =>
    simp only [braceScan, List.mem_append]
    constructor
    · rintro (h | h)
      · split at h
        · rename_i hneg
          refine ⟨0, by simp, by simpa using h, ?_⟩
          simpa [braceRun] using hneg
        · simp at h
      · rcases (ih _ _).mp h with ⟨k, hk, hn, hlt⟩
        refine ⟨k + 1, by simpa using hk, by omega, ?_⟩
        simpa [braceRun] using hlt
    · rintro ⟨k, hk, hn, hlt⟩
      cases k with
      | zero =>
        left
        have hneg : c + braceDelta line < 0 := by simpa [braceRun] using hlt
        simp [hneg, hn]
      | succ k =>
        right
        refine (ih _ _).mpr ⟨k, by simpa using hk, by omega, ?_⟩
        simpa [braceRun] using hlt

lemma count_mismatched_braceScan :
    ∀ (c : Int) (i : Nat) (ls : List String),
      (braceScan c i ls).count Issue.mismatchedBraces =
        if braceRun c ls ≠ 0 then 1 else 0 := by
  intro c i ls
  induction ls generalizing c i with
  | nil =>
    simp only [braceScan, braceRun, List.foldl_nil]
    split <;> simp_all
  | cons line t ih =>
    simp only [braceScan, List.count_append]
    have h1 : ((if c + braceDelta line < 0 then [Issue.unmatchedBrace i] else []) :
        List Issue).count Issue.mismatchedBraces = 0 := by
      split <;> simp
    rw [h1, ih]
    simp [braceRun]

/-- Claim C3: the brace counter adds the `{` count and subtracts the `}`
count of each line; an `unmatchedBrace` issue cites line N exactly when the
counter (with its reset-to-0 after each negative excursion, as `braceRun`
folds it) goes negative on line N, and exactly one `mismatchedBraces` issue
appears precisely when the final counter is nonzero. -/
theorem c3_brace_balance (ls : List String) (n : Nat) :
    (Issue.unmatchedBrace n ∈ checkLines ls ↔
      ∃ k, k < ls.length ∧ n = k + 1 ∧
        braceRun 0 (ls.take k) + braceDelta (ls.getD k "") < 0) ∧
    (checkLines ls).count Issue.mismatchedBraces =
      if braceRun 0 ls ≠ 0 then 1 else 0 := by
  constructor
  · rw [unmatchedBrace_mem, unmatchedBrace_mem_braceScan]
    constructor <;> rintro ⟨k, hk, hn, hlt⟩ <;> exact ⟨k, hk, by omega, hlt⟩
  · rw [count_mismatchedBraces_checkLines, count_mismatched_braceScan]

end Biger

namespace Biger

lemma badEntityDecl_mem_declScan {n : Nat} {s : String} :
    ∀ (i : Nat) (ls : List String),
      (Issue.badEntityDecl n s ∈ declScan i ls ↔
        ∃ k, k < ls.length ∧ n = i + k ∧ s = pyStrip (ls.getD k "") ∧
          (pyStartsWith s "entity " || pyStartsWith s "weak entity ") = true ∧
          (ENTITY_DECL s || WEAK_ENTITY_DECL s) = false) := by
  intro i ls
  induction ls generalizing i with
  | nil => simp [declScan]
  | cons line t ih =>
    simp only [declScan, List.mem_append]
    constructor
    · rintro (h | h)
      · simp only [declLineIssues, List.mem_append] at h
        rcases h with h | h
        · split at h
          · rename_i hcond
            simp only [Bool.and_eq_true, Bool.not_eq_true'] at hcond
            simp only [List.mem_singleton, Issue.badEntityDecl.injEq] at h
            exact ⟨0, by simp, by omega, by simp [h.2], by simpa [h.2] using hcond.1,
              by simpa [h.2] using hcond.2⟩
          · simp at h
        · split at h <;> simp at h
      · rcases (ih _).mp h with ⟨k, hk, hn, hs, hg, hm⟩
        exact ⟨k + 1, by simpa using hk, by omega, by simpa using hs, hg, hm⟩
    · rintro ⟨k, hk, hn, hs, hg, hm⟩
      cases k with
      | zero =>
        left
        simp only [List.getD_cons_zero] at hs
        subst hs
        have hni : n = i := by omega
        subst hni
        simp [declLineIssues, hg, hm]
      | succ k =>
        right
        exact (ih _).mpr ⟨k, by simpa using hk, by omega, by simpa using hs, hg, hm⟩

lemma badRelDecl_mem_declScan {n : Nat} {s : String} :
    ∀ (i : Nat) (ls : List String),
      (Issue.badRelDecl n s ∈ declScan i ls ↔
        ∃ k, k < ls.length ∧ n = i + k ∧ s = pyStrip (ls.getD k "") ∧
          pyStartsWith s "relationship " = true ∧ REL_DECL s = false) := by
  intro i ls
  induction ls generalizing i with
  | nil => simp [declScan]
  | cons line t ih =>
    simp only [declScan, List.mem_append]
    constructor
    · rintro (h | h)
      · simp only [declLineIssues, List.mem_append] at h
        rcases h with h | h
        · split at h <;> simp at h
        · split at h
          · rename_i hcond
            simp only [Bool.and_eq_true, Bool.not_eq_true'] at hcond
            simp only [List.mem_singleton, Issue.badRelDecl.injEq] at h
            exact ⟨0, by simp, by omega, by simp [h.2], by simpa [h.2] using hcond.1,
              by simpa [h.2] using hcond.2⟩
          · simp at h
      · rcases (ih _).mp h with ⟨k, hk, hn, hs, hg, hm⟩
        exact ⟨k + 1, by simpa using hk, by omega, by simpa using hs, hg, hm⟩
    · rintro ⟨k, hk, hn, hs, hg, hm⟩
      cases k with
      | zero =>
        left
        simp only [List.getD_cons_zero] at hs
        subst hs
        have hni : n = i := by omega
        subst hni
        simp [declLineIssues, hg, hm]
      | succ k =>
        right
        exact (ih _).mpr ⟨k, by simpa using hk, by omega, by simpa using hs, hg, hm⟩

/-- Claim C6: for a line whose trimmed form starts with `entity ` or
`weak entity `, an invalid-entity issue carrying the trimmed text is
emitted iff neither `ENTITY_DECL` nor `WEAK_ENTITY_DECL` matches it;
analogously for `relationship ` lines against `REL_DECL`. -/
theorem c6_decl_check (ls : List String) (n : Nat) (h1 : 1 ≤ n) (h2 : n ≤ ls.length) :
    ((pyStartsWith (pyStrip (ls.getD (n - 1) "")) "entity " = true ∨
      pyStartsWith (pyStrip (ls.getD (n - 1) "")) "weak entity " = true) →
      (Issue.badEntityDecl n (pyStrip (ls.getD (n - 1) "")) ∈ checkLines ls ↔
        (ENTITY_DECL (pyStrip (ls.getD (n - 1) "")) ||
          WEAK_ENTITY_DECL (pyStrip (ls.getD (n - 1) ""))) = false)) ∧
    (pyStartsWith (pyStrip (ls.getD (n - 1) "")) "relationship " = true →
      (Issue.badRelDecl n (pyStrip (ls.getD (n - 1) "")) ∈ checkLines ls ↔
        REL_DECL (pyStrip (ls.getD (n - 1) "")) = false)) := by
  constructor
  · intro hg
    rw [badEntityDecl_mem, badEntityDecl_mem_declScan]
    constructor
    · rintro ⟨k, hk, hn, hs, hga, hm⟩
      obtain rfl : k = n - 1 := by omega
      exact hm
    · intro hm
      refine ⟨n - 1, by omega, by omega, rfl, ?_, hm⟩
      rw [Bool.or_eq_true]
      exact hg
  · intro hg
    rw [badRelDecl_mem, badRelDecl_mem_declScan]
    constructor
    · rintro ⟨k, hk, hn, hs, hga, hm⟩
      obtain rfl : k = n - 1 := by omega
      exact hm
    · intro hm
      exact ⟨n - 1, by omega, by omega, rfl, hg, hm⟩

theorem c6_decl_witness :
    Issue.badEntityDecl 3
        (pyStrip (List.getD ["erdiagram M", "notation=x", "entity 2Bad \x7b ... \x7d"] 2 "")) ∈
      checkLines ["erdiagram M", "notation=x", "entity 2Bad \x7b ... \x7d"] :=
  ((c6_decl_check ["erdiagram M", "notation=x", "entity 2Bad \x7b ... \x7d"] 3 (by decide)
      (by decide)).1 (Or.inl (by decide))).mpr (by decide)

end Biger

namespace Biger

lemma relFlagOut_eq_true {b : Bool} {line : String} :
    relFlagOut (relFlagIn b line) line = true ↔
      ((b = true ∨ pyStartsWith (pyStrip line) "relationship " = true) ∧
        pyEndsWith (pyStrip line) '}' = false) := by
  cases b <;>
    cases hrel : pyStartsWith (pyStrip line) "relationship " <;>
      cases hend : pyEndsWith (pyStrip line) '}' <;>
        simp [relFlagOut, relFlagIn, hrel, hend]

lemma cardApplied_iff_general :
    ∀ (ls : List String) (b : Bool) (i : Nat), i < ls.length →
      (cardApplied b ls i = true ↔
        ((∃ j, j ≤ i ∧ pyStartsWith (pyStrip (ls.getD j "")) "relationship " = true ∧
            ∀ k, j ≤ k → k < i → pyEndsWith (pyStrip (ls.getD k "")) '}' = false) ∨
          (b = true ∧ ∀ k, k < i → pyEndsWith (pyStrip (ls.getD k "")) '}' = false))) := by
  intro ls
  induction ls with
  | nil => intro b i hi; simp at hi
  | cons line t ih =>
    intro b i hi
    cases i with
    | zero =>
      simp only [cardApplied, relFlagIn]
      constructor
      · intro h
        rcases (by simpa using h :
          b = true ∨ pyStartsWith (pyStrip line) "relationship " = true) with hb | hr
        · exact Or.inr ⟨hb, fun k hk => absurd hk (by omega)⟩
        · exact Or.inl ⟨0, Nat.le_refl 0, by simpa using hr,
            fun k hk1 hk2 => absurd hk2 (by omega)⟩
      · rintro (⟨j, hj, hr, hks⟩ | ⟨hb, hks⟩)
        · obtain rfl : j = 0 := by omega
          rw [Bool.or_eq_true]
          right
          simpa using hr
        · rw [Bool.or_eq_true]
          left
          exact hb
    | succ i =>
      have hi2 : i < t.length := by simpa using hi
      simp only [cardApplied]
      rw [ih _ i hi2]
      constructor
      · rintro (⟨j, hj, hr, hks⟩ | ⟨hb2, hks⟩)
        · refine Or.inl ⟨j + 1, by omega, by simpa using hr, ?_⟩
          intro k hk1 hk2
          obtain ⟨q, rfl⟩ : ∃ q, k = q + 1 := ⟨k - 1, by omega⟩
          rw [List.getD_cons_succ]
          exact hks q (by omega) (by omega)
        · rcases relFlagOut_eq_true.mp hb2 with ⟨hbor, hend⟩
          rcases hbor with hb | hr
          · refine Or.inr ⟨hb, ?_⟩
            intro k hk
            cases k with
            | zero => simpa using hend
            | succ q => rw [List.getD_cons_succ]; exact hks q (by omega)
          · refine Or.inl ⟨0, by omega, by simpa using hr, ?_⟩
            intro k hk1 hk2
            cases k with
            | zero => simpa using hend
            | succ q => rw [List.getD_cons_succ]; exact hks q (by omega)
      · rintro (⟨j, hj, hr, hks⟩ | ⟨hb, hks⟩)
        · cases j with
          | zero =>
            refine Or.inr ⟨relFlagOut_eq_true.mpr ⟨Or.inr (by simpa using hr),
              by simpa using hks 0 (by omega) (by omega)⟩, ?_⟩
            intro q hq
            have := hks (q + 1) (by omega) (by omega)
            simpa using this
          | succ j =>
            refine Or.inl ⟨j, by omega, by simpa using hr, ?_⟩
            intro q hq1 hq2
            have := hks (q + 1) (by omega) (by omega)
            simpa using this
        · refine Or.inr ⟨relFlagOut_eq_true.mpr ⟨Or.inl hb,
            by simpa using hks 0 (by omega)⟩, ?_⟩
          intro q hq
          have := hks (q + 1) (by omega)
          simpa using this

/-- Claim C7: the relationship-block flag starts false, is set by a line
whose trimmed form starts with `relationship ` before that line's own
cardinality test, and is cleared after the test of any flagged line whose
trimmed form ends with `}` (regardless of brace depth); hence the check
applies to line `i` iff some line `j ≤ i` starts a relationship and no line
`k` with `j ≤ k < i` ends, trimmed, with `}`. -/
theorem c7_rel_block_flag (ls : List String) (i : Nat) (hi : i < ls.length) :
    cardApplied false ls i = true ↔
      ∃ j, j ≤ i ∧ pyStartsWith (pyStrip (ls.getD j "")) "relationship " = true ∧
        ∀ k, j ≤ k → k < i → pyEndsWith (pyStrip (ls.getD k "")) '}' = false := by
  rw [cardApplied_iff_general ls false i hi]
  simp

theorem c7_rel_block_flag_witness :
    ∃ j, j ≤ 1 ∧
      pyStartsWith (pyStrip (List.getD ["relationship R \x7b", "a -> b [1]", "\x7d"] j ""))
          "relationship " = true ∧
      ∀ k, j ≤ k → k < 1 →
        pyEndsWith (pyStrip (List.getD ["relationship R \x7b", "a -> b [1]", "\x7d"] k ""))
          '}' = false :=
  (c7_rel_block_flag ["relationship R \x7b", "a -> b [1]", "\x7d"] 1 (by decide)).mp (by decide)

end Biger

namespace Biger

lemma lineNum_braceScan {x : Issue} :
    ∀ {c : Int} {i : Nat} {ls : List String}, x ∈ braceScan c i ls →
      ∀ m, lineNum x = some m → i ≤ m ∧ m < i + ls.length := by
  intro c i ls
  induction ls generalizing c i with
  | nil =>
    intro h m hm
    simp only [braceScan] at h
    split at h
    · rw [(show x = Issue.mismatchedBraces by simpa using h)] at hm
      simp [lineNum] at hm
    · simp at h
  | cons line t ih =>
    intro h m hm
    simp only [braceScan, List.mem_append] at h
    rcases h with h | h
    · split at h
      · rw [(show x = Issue.unmatchedBrace i by simpa using h)] at hm
        simp only [lineNum, Option.some.injEq] at hm
        simp only [List.length_cons]
        omega
      · simp at h
    · have := ih h m hm
      simp only [List.length_cons]
      omega

lemma lineNum_declScan {x : Issue} :
    ∀ {i : Nat} {ls : List String}, x ∈ declScan i ls →
      ∀ m, lineNum x = some m → i ≤ m ∧ m < i + ls.length := by
  intro i ls
  induction ls generalizing i with
  | nil => intro h; simp [declScan] at h
  | cons line t ih =>
    intro h m hm
    simp only [declScan, List.mem_append] at h
    rcases h with h | h
    · rcases mem_declLineIssues h with h | h <;>
        (rw [h] at hm; simp only [lineNum, Option.some.injEq] at hm;
          simp only [List.length_cons]; omega)
    · have := ih h m hm
      simp only [List.length_cons]
      omega

lemma lineNum_cardScan {x : Issue} :
    ∀ {b : Bool} {i : Nat} {ls : List String}, x ∈ cardScan b i ls →
      ∀ m, lineNum x = some m → i ≤ m ∧ m < i + ls.length := by
  intro b i ls
  induction ls generalizing b i with
  | nil => intro h; simp [cardScan] at h
  | cons line t ih =>
    intro h m hm
    simp only [cardScan, List.mem_append] at h
    rcases h with h | h
    · split at h
      · rw [mem_cardLineIssues h] at hm
        simp only [lineNum, Option.some.injEq] at hm
        simp only [List.length_cons]
        omega
      · simp at h
    · have := ih h m hm
      simp only [List.length_cons]
      omega

lemma lineNum_quoteScan {x : Issue} :
    ∀ {i : Nat} {ls : List String}, x ∈ quoteScan i ls →
      ∀ m, lineNum x = some m → i ≤ m ∧ m < i + ls.length := by
  intro i ls
  induction ls generalizing i with
  | nil => intro h; simp [quoteScan] at h
  | cons line t ih =>
    intro h m hm
    simp only [quoteScan, List.mem_append] at h
    rcases h with h | h
    · split at h
      · rw [(show x = Issue.quotedNames i by simpa using h)] at hm
        simp only [lineNum, Option.some.injEq] at hm
        simp only [List.length_cons]
        omega
      · simp at h
    · have := ih h m hm
      simp only [List.length_cons]
      omega

/-- Claim C9: every issue that cites a line number cites one between 1 and
the number of lines, and on the empty document exactly the two
line-number-free issues (header and notation) are produced. -/
theorem c9_line_number_bounds (ls : List String) (x : Issue) (hx : x ∈ checkLines ls)
    (m : Nat) (hm : lineNum x = some m) :
    (1 ≤ m ∧ m ≤ ls.length) ∧
      checkLines [] = [Issue.badHeader, Issue.missingNotationDecl] := by
  refine ⟨?_, by rfl⟩
  rcases mem_checkLines_iff.mp hx with h | h | h | h | h | h
  · rw [mem_headerIssues h] at hm
    simp [lineNum] at hm
  · rw [mem_notationIssues h] at hm
    simp [lineNum] at hm
  · have := lineNum_braceScan h m hm
    omega
  · have := lineNum_declScan h m hm
    omega
  · have := lineNum_cardScan h m hm
    omega
  · have := lineNum_quoteScan h m hm
    omega

theorem c9_line_number_bounds_witness :
    (1 ≤ 1 ∧ 1 ≤ (["\x7d"] : List String).length) ∧
      checkLines [] = [Issue.badHeader, Issue.missingNotationDecl] :=
  c9_line_number_bounds ["\x7d"] (Issue.unmatchedBrace 1) (by decide) 1 (by decide)

end Biger

namespace Biger

lemma searchBy_of {f : List Char → Bool} {l : List Char} (h : f l = true) :
    searchBy f l = true := by
  cases l with
  | nil => simpa [searchBy] using h
  | cons c l => simp [searchBy, h]

lemma searchBy_append {f : List Char → Bool} (l1 l2 : List Char) (h : f l2 = true) :
    searchBy f (l1 ++ l2) = true := by
  induction l1 with
  | nil => simpa using searchBy_of h
  | cons c l1 ih => simp [searchBy, ih]

lemma bracketTokClose_intro {tok : List Char} (h : tok ∈ cardToks) (suf : List Char) :
    bracketTokClose ('[' :: (tok ++ ']' :: suf)) = true := by
  simp only [cardToks, List.mem_cons, List.mem_singleton, List.not_mem_nil, or_false] at h
  rcases h with rfl | rfl | rfl | rfl | rfl | rfl <;> rfl

lemma pipeAfterSpaces_intro {ws : List Char} (rest : List Char)
    (hw : ∀ c ∈ ws, isPySpace c = true) : pipeAfterSpaces (ws ++ '|' :: rest) = true := by
  induction ws with
  | nil => rfl
  | cons c ws ih =>
    have hc : isPySpace c = true := hw c (by simp)
    have hcne : c ≠ '|' := by
      intro hEq
      rw [hEq] at hc
      exact absurd hc (by decide)
    have hcp : (c == '|') = false := beq_eq_false_iff_ne.mpr hcne
    simp [pipeAfterSpaces, hcp, hc, ih (fun d hd => hw d (by simp [hd]))]

lemma bracketTokPipe_intro {tok ws : List Char} (rest : List Char) (h : tok ∈ cardToks)
    (hw : ∀ c ∈ ws, isPySpace c = true) :
    bracketTokPipe ('[' :: (tok ++ ws ++ '|' :: rest)) = true := by
  have hp := pipeAfterSpaces_intro rest hw
  simp only [cardToks, List.mem_cons, List.mem_singleton, List.not_mem_nil, or_false] at h
  rcases h with rfl | rfl | rfl | rfl | rfl | rfl <;>
    simp [bracketTokPipe, cardAlts, matchPat, hp]

lemma cardSegOk_of_goodSeg {t : List Char} (h : goodSeg t) : cardSegOk t = true := by
  rcases h with ⟨pre, tok, suf, hmem, rfl⟩ | ⟨pre, tok, ws, rest, hmem, hws, rfl⟩
  · have h2 : searchBy bracketTokClose (pre ++ '[' :: (tok ++ ']' :: suf)) = true :=
      searchBy_append _ _ (bracketTokClose_intro hmem suf)
    simp [cardSegOk, h2]
  · have h2 : searchBy bracketTokPipe (pre ++ '[' :: (tok ++ ws ++ '|' :: rest)) = true :=
      searchBy_append _ _ (bracketTokPipe_intro rest hmem hws)
    have h3 : (pre ++ '[' :: (tok ++ ws ++ '|' :: rest)).contains '|' = true := by simp
    simp only [List.append_assoc] at h2 h3
    simp [cardSegOk, h2, h3]

lemma cardLineIssues_nil_of {i : Nat} {line : String} (h : goodLineCard line) :
    cardLineIssues i line = [] := by
  simp only [cardLineIssues]
  split
  · rename_i harr
    apply List.filterMap_eq_nil_iff.mpr
    intro t ht
    cases hb1 : t.contains '['
    · simp [hb1]
    · cases hb2 : t.contains ']'
      · simp [hb1, hb2]
      · have := cardSegOk_of_goodSeg (h harr t ht hb1 hb2)
        simp [hb1, hb2, this]
  · rfl

lemma cardScan_nil_of :
    ∀ (b : Bool) (i : Nat) (ls : List String),
      (∀ j, j < ls.length → cardApplied b ls j = true → goodLineCard (ls.getD j "")) →
      cardScan b i ls = [] := by
  intro b i ls
  induction ls generalizing b i with
  | nil => intro _; rfl
  | cons line t ih =>
    intro h
    simp only [cardScan]
    have h2 : cardScan (relFlagOut (relFlagIn b line) line) (i + 1) t = [] := by
      apply ih
      intro j hj happ
      have := h (j + 1) (by simpa using hj) (by simpa [cardApplied] using happ)
      simpa using this
    rw [h2]
    by_cases hb : relFlagIn b line = true
    · have hg : goodLineCard line := by
        have := h 0 (by simp) (by simpa [cardApplied] using hb)
        simpa using this
      simp [hb, cardLineIssues_nil_of hg]
    · simp only [Bool.not_eq_true] at hb
      simp [hb]

lemma braceScan_nil_of :
    ∀ (c : Int) (i : Nat) (ls : List String),
      (∀ k, k ≤ ls.length → 0 ≤ c + rawBrace (ls.take k)) → c + rawBrace ls = 0 →
      braceScan c i ls = [] := by
  intro c i ls
  induction ls generalizing c i with
  | nil =>
    intro hpre hend
    have hc : c = 0 := by simpa [rawBrace] using hend
    simp [braceScan, hc]
  | cons line t ih =>
    intro hpre hend
    have h1 : 0 ≤ c + braceDelta line := by
      have := hpre 1 (by simp)
      simpa [rawBrace] using this
    have hneg : ¬(c + braceDelta line < 0) := by omega
    simp only [braceScan, if_neg hneg, braceStep, List.nil_append]
    apply ih
    · intro k hk
      have := hpre (k + 1) (by simpa using hk)
      simp only [List.take_succ_cons, rawBrace, List.map_cons, List.sum_cons] at this
      simp only [rawBrace]
      omega
    · simp only [rawBrace, List.map_cons, List.sum_cons] at hend
      simp only [rawBrace]
      omega

lemma declScan_nil_of :
    ∀ (i : Nat) (ls : List String), (∀ line ∈ ls, declLineOk line) → declScan i ls = [] := by
  intro i ls
  induction ls generalizing i with
  | nil => intro _; rfl
  | cons line t ih =>
    intro h
    rcases h line (by simp) with ⟨he, hr⟩
    simp only [declScan]
    rw [ih _ (fun l hl => h l (by simp [hl]))]
    simp only [declLineIssues]
    have e1 : ((pyStartsWith (pyStrip line) "entity " ||
        pyStartsWith (pyStrip line) "weak entity ") &&
        !(ENTITY_DECL (pyStrip line) || WEAK_ENTITY_DECL (pyStrip line))) = false := by
      cases hg : (pyStartsWith (pyStrip line) "entity " ||
          pyStartsWith (pyStrip line) "weak entity ")
      · simp
      · have hm := he (by rwa [Bool.or_eq_true] at hg)
        rw [hm]
        simp
    have e2 : (pyStartsWith (pyStrip line) "relationship " &&
        !REL_DECL (pyStrip line)) = false := by
      cases hg : pyStartsWith (pyStrip line) "relationship "
      · simp
      · simp [hr hg]
    simp only [e1, e2]
    simp

lemma quoteScan_nil_of :
    ∀ (i : Nat) (ls : List String),
      (∀ line ∈ ls, line.data.contains '"' = false) → quoteScan i ls = [] := by
  intro i ls
  induction ls generalizing i with
  | nil => intro _; rfl
  | cons line t ih =>
    intro h
    simp only [quoteScan]
    rw [ih _ (fun l hl => h l (by simp [hl])), h line (by simp)]
    simp

lemma headerIssues_nil_of {ls : List String} (h0 : ls ≠ [])
    (h1 : pyStartsWith (pyStrip (ls.headD "")) "erdiagram" = true) :
    headerIssues ls = [] := by
  rcases ls with _ | ⟨l, t⟩
  · exact absurd rfl h0
  · simp only [List.headD_cons] at h1
    simp [headerIssues, h1]

lemma notationIssues_nil_of {ls : List String}
    (h : ∃ line ∈ ls.take 10, pyStartsWith (pyStrip line) "notation=" = true) :
    notationIssues ls = [] := by
  have ha : (ls.take 10).any (fun line => pyStartsWith (pyStrip line) "notation=") = true := by
    rw [List.any_eq_true]
    simpa using h
  simp [notationIssues, ha]

/-- Claim C1: a document whose trimmed first line starts with `erdiagram`,
with a `notation=` line among its first 10 lines, whose raw running brace
sum never goes negative and ends at 0, whose entity/weak-entity/relationship
declaration lines match the declaration patterns, whose bracketed segments
on `->` lines inside relationship blocks carry recognized cardinality
tokens, and which holds no double quote, validates cleanly: no issues, the
PASS message, exit status 0. -/
theorem c1_wellformed_passes (ls : List String)
    (h0 : ls ≠ [])
    (h1 : pyStartsWith (pyStrip (ls.headD "")) "erdiagram" = true)
    (h2 : ∃ line ∈ ls.take 10, pyStartsWith (pyStrip line) "notation=" = true)
    (h3 : ∀ k, k ≤ ls.length → 0 ≤ rawBrace (ls.take k))
    (h4 : rawBrace ls = 0)
    (h5 : ∀ line ∈ ls, declLineOk line)
    (h6 : ∀ j, j < ls.length → cardApplied false ls j = true → goodLineCard (ls.getD j ""))
    (h7 : ∀ line ∈ ls, line.data.contains '"' = false) :
    checkLines ls = [] ∧
      ∀ prog p fs text, fs p = some text → splitlines text = ls →
        runMain [prog, p] fs =
          (["PASS: No obvious syntax problems found by the lightweight validator."], 0) := by
  have hck : checkLines ls = [] := by
    rw [checkLines, headerIssues_nil_of h0 h1, notationIssues_nil_of h2,
      braceScan_nil_of 0 1 ls (by intro k hk; simpa using h3 k hk) (by simpa using h4),
      declScan_nil_of 1 ls h5, cardScan_nil_of false 1 ls h6, quoteScan_nil_of 1 ls h7]
    rfl
  refine ⟨hck, ?_⟩
  intro prog p fs text hfs hsplit
  simp [runMain, check_file, hfs, hsplit, hck]

theorem c1_wellformed_passes_witness :
    checkLines ["erdiagram Shop", "notation=crowsfoot", "entity Order \x7b", "  id", "\x7d"] = [] ∧
      runMain ["biger_validator.py", "shop.erd"]
          (fun _ => some "erdiagram Shop\nnotation=crowsfoot\nentity Order \x7b\n  id\n\x7d\n") =
        (["PASS: No obvious syntax problems found by the lightweight validator."], 0) := by
  have h := c1_wellformed_passes
    ["erdiagram Shop", "notation=crowsfoot", "entity Order \x7b", "  id", "\x7d"]
    (by decide) (by decide) ⟨"notation=crowsfoot", by decide, by decide⟩
    (by decide) (by decide) (by intro line hl; fin_cases hl <;> exact ⟨fun hg => by revert hg; decide, fun hg => by revert hg; decide⟩)
    (by
      intro j hj happ
      have hj5 : j < 5 := by simpa using hj
      interval_cases j <;> exact absurd happ (by decide))
    (by decide)
  exact ⟨h.1, h.2 "biger_validator.py" "shop.erd" _
    "erdiagram Shop\nnotation=crowsfoot\nentity Order \x7b\n  id\n\x7d\n" rfl (by decide)⟩

end Biger

namespace Biger

/-- Claim C2 (code bug): the source regex `\\[(?:0\\..N|1\\..N|0\\..1|1\\..1|N|1)\\]`
escapes only the first dot of each two-dot token, so its third position is
`.` (any character).  The segment `[0.xN]` therefore passes the cardinality
test although `0.xN` is none of the recognized tokens, and the file below
validates with no issue at all, where the specification demands an
"Unrecognized cardinality" issue for line 4. -/
theorem c2_card_regex_accepts_unrecognized :
    checkLines ["erdiagram M", "notation=crowsfoot", "relationship R \x7b",
        "A -> B [0.xN]", "\x7d"] = [] ∧
      cardSegOk (" B [0.xN]".data) = true ∧
      ∀ tok ∈ cardToks, tok ≠ "0.xN".data := by
  refine ⟨by decide, by decide, by decide⟩

/-- Claim C4: the command line prints a usage message and exits 2 on a
wrong argument count, prints `File not found: <path>` and exits 2 when the
path does not exist, prints the PASS message and exits 0 when validation
finds nothing, and prints `Found issues:` followed by each issue prefixed
with `- `, in order, exiting 1, when it finds some. -/
theorem c4_cli_behavior (argv : List String) (fs : String → Option String)
    (prog p text : String) :
    (argv.length ≠ 2 →
      runMain argv fs = (["Usage: biger_validator.py <path_to_erd_file>"], 2)) ∧
    (fs p = none → runMain [prog, p] fs = (["File not found: " ++ p], 2)) ∧
    (fs p = some text → check_file text = [] →
      runMain [prog, p] fs =
        (["PASS: No obvious syntax problems found by the lightweight validator."], 0)) ∧
    (fs p = some text → check_file text ≠ [] →
      runMain [prog, p] fs =
        ("Found issues:" :: (check_file text).map (fun it => "- " ++ issueText it), 1)) := by
  refine ⟨?_, ?_, ?_, ?_⟩
  · intro h
    simp [runMain, h]
  · intro h
    simp [runMain, h]
  · intro h1 h2
    simp [runMain, h1, h2]
  · intro h1 h2
    simp [runMain, h1, h2]

theorem c4_cli_behavior_witness :
    runMain ["biger_validator.py"] (fun _ => none) =
        (["Usage: biger_validator.py <path_to_erd_file>"], 2) ∧
      runMain ["biger_validator.py", "x.erd"] (fun _ => none) =
        (["File not found: " ++ "x.erd"], 2) ∧
      runMain ["biger_validator.py", "x.erd"] (fun _ => some "erdiagram M\nnotation=c\n") =
        (["PASS: No obvious syntax problems found by the lightweight validator."], 0) ∧
      runMain ["biger_validator.py", "x.erd"] (fun _ => some "hello") =
        ("Found issues:" :: (check_file "hello").map (fun it => "- " ++ issueText it), 1) :=
  ⟨(c4_cli_behavior ["biger_validator.py"] (fun _ => none) "biger_validator.py" "x.erd"
      "").1 (by decide),
   (c4_cli_behavior ["biger_validator.py", "x.erd"] (fun _ => none) "biger_validator.py"
      "x.erd" "").2.1 rfl,
   (c4_cli_behavior ["biger_validator.py", "x.erd"]
      (fun _ => some "erdiagram M\nnotation=c\n") "biger_validator.py" "x.erd"
      "erdiagram M\nnotation=c\n").2.2.1 rfl (by decide),
   (c4_cli_behavior ["biger_validator.py", "x.erd"] (fun _ => some "hello")
      "biger_validator.py" "x.erd" "hello").2.2.2 rfl (by decide)⟩

end Biger
